import Mathlib

/-!
Verification of the workflow orchestration and termination-control subsystem of
the FDA Regulatory Assistant (`graph/state.py`, `graph/graph.py`, `main.py`).

The Python source is shallowly embedded: each Python function that the claims
touch becomes a Lean function of the same name, translated clause by clause.
External effects (the LLM "oracle", the `zipfile` library, the document-text
extractor) are passed in as explicit function parameters; a Python exception is
modelled as `Except.error`.
-/

namespace FdaSamd

/-- A LangChain message as the orchestration code sees it: textual `content`
plus an optional `name` attribute.  The human seed message carries no name;
the Python code treats a `None` or empty-string name as "not an agent". -/
structure Message where
  content : String
  name : Option String
deriving Repr, DecidableEq

/-- Python truthiness of `message.name` combined with `hasattr`: the author is
counted only when the name attribute is present and non-empty
(`hasattr(message, "name") and message.name`). -/
def msgAuthor (m : Message) : Option String :=
  match m.name with
  | none => none
  | some s => if s = "" then none else some s

/-- An uploaded-file record `{name, content, type, size}` as built by
`main.process_zip_file` and consumed by `create_initial_state`. -/
structure FileData where
  name : String
  content : String
  type : String
  size : Nat
deriving Repr, DecidableEq

/-- A `(document, page)` citation as produced by
`graph.extract_sources_from_message`. -/
structure Citation where
  document : String
  page : String
deriving Repr, DecidableEq

/-- The `ComplianceGapState` TypedDict of `graph/state.py`, restricted to the
fields the orchestration logic reads or writes.  The analysis side-channel
slots are kept as opaque key/value lists since no claim inspects their
contents. -/
structure ComplianceGapState where
  messages : List Message
  team_members : List String
  next : String
  workflow_type : String
  user_question : Option String
  uploaded_files : List FileData
  processed_documents : List String
  cybersecurity_analysis : Option (List (String × String))
  regulatory_analysis : Option (List (String × String))
  gap_analysis : Option (List (String × String))
  document_metadata : Option (List (String × String))
  final_response : Option String
  response_sources : List Citation
deriving Repr, DecidableEq

/-- Python truthiness of an optional string (`None` and `""` are falsy). -/
def pyTruthyStr : Option String → Bool
  | none => false
  | some s => !(s == "")

/-- Python truthiness of an optional list (`None` and `[]` are falsy). -/
def pyTruthyList : Option (List α) → Bool
  | none => false
  | some l => !l.isEmpty

/-- `uploaded_files or []` from `create_initial_state`. -/
def pyOrEmptyList : Option (List α) → List α
  | none => []
  | some l => l

/-- `graph.state.create_initial_state`: builds the initial
`ComplianceGapState`.  Note the gap-analysis team list in the source has four
entries; `document_processor` is absent. -/
def create_initial_state (user_input : String)
    (uploaded_files : Option (List FileData))
    (workflow_type : String) : ComplianceGapState :=
  let team_members :=
    if workflow_type = "gap_analysis" then
      ["cybersecurity_agent", "regulatory_agent", "auditor_agent",
       "report_generator"]
    else
      ["cybersecurity_agent", "regulatory_agent"]
  { messages := [⟨user_input, none⟩]
    team_members := team_members
    next := "supervisor"
    workflow_type := workflow_type
    user_question := some user_input
    uploaded_files := pyOrEmptyList uploaded_files
    processed_documents := []
    cybersecurity_analysis := none
    regulatory_analysis := none
    gap_analysis := none
    document_metadata := none
    final_response := none
    response_sources := [] }

/-- `graph.state.get_completed_agents_from_messages`: first-seen list of
message authors, excluding the supervisor. -/
def get_completed_agents_from_messages (messages : List Message) : List String :=
  messages.foldl
    (fun completed m =>
      match msgAuthor m with
      | some n =>
          if n ∈ completed ∨ n = "supervisor" then completed
          else completed ++ [n]
      | none => completed)
    []

/-- The predicate behind `agent_message_count` in `supervisor_node`:
`hasattr(m, "name") and m.name and m.name != "supervisor"`. -/
def isAgentMessage (m : Message) : Bool :=
  match msgAuthor m with
  | some n => n ≠ "supervisor"
  | none => false

/-- `len([m for m in messages if hasattr(m, "name") and m.name and m.name != "supervisor"])`. -/
def agentMessageCount (messages : List Message) : Nat :=
  (messages.filter isAgentMessage).length

/-- The trailing sources marker the agent nodes append and the compiler strips.
The source file stores the book emoji as the four mojibake code points
U+00F0 U+0178 U+201C U+0161, reproduced here byte-for-byte. -/
def sources_marker : String :=
  "ðŸ“š **Sources referenced:**"

/-- Python `str.strip()`: drop leading and trailing whitespace. -/
def pyStrip (s : String) : String :=
  String.mk
    (((s.data.dropWhile Char.isWhitespace).reverse.dropWhile
        Char.isWhitespace).reverse)

/-- The characters before the first occurrence of `pat`, or `none` when
`pat` does not occur (the `marker in content` test plus
`content.split(marker)[0]`). -/
def prefixBeforeMarker (pat : List Char) : List Char → Option (List Char)
  | [] => if pat.isPrefixOf ([] : List Char) then some [] else none
  | c :: cs =>
      if pat.isPrefixOf (c :: cs) then some []
      else (prefixBeforeMarker pat cs).map (fun pre => c :: pre)

/-- `content.split(marker)[0].strip()` applied only when the marker occurs in
the content, exactly as in `compile_final_response_from_messages`. -/
def strip_sources_section (content : String) : String :=
  match prefixBeforeMarker sources_marker.data content.data with
  | none => content
  | some pre => pyStrip (String.mk pre)

/-- The `agent_responses` list computed at the top of
`compile_final_response_from_messages`: `(author, cleaned content)` for every
non-human, non-supervisor message, in message order. -/
def agentResponses (messages : List Message) : List (String × String) :=
  messages.filterMap (fun m =>
    match msgAuthor m with
    | some n =>
        if n = "supervisor" then none
        else some (n, strip_sources_section m.content)
    | none => none)

/-- Python `str.title()` restricted to its behaviour on alphabetic words:
a letter is uppercased when the preceding character is not a letter and
lowercased otherwise. -/
def pyTitle (s : String) : String :=
  String.mk
    ((s.data.foldl
        (fun (acc : List Char × Bool) c =>
          (acc.1 ++ [if acc.2 then c.toLower else c.toUpper], c.isAlpha))
        ([], false)).1)

/-- Fixed framing before the specialist body in the question-answering
compilation. -/
def qa_prefix : String :=
  "**FDA Auditor Assessment:**\n\nBased on my review and specialist analysis, here are the key findings:\n\n"

/-- Fixed framing between the specialist body and the specialist name in the
question-answering compilation. -/
def qa_infix : String :=
  "\n\n**Regulatory Context:**\nThis assessment is based on current FDA guidance documents and regulatory requirements. The analysis above provides the technical details you requested from our "

/-- Fixed framing after the specialist name in the question-answering
compilation. -/
def qa_suffix : String :=
  " specialist.\n\n**Recommendations:**\nPlease review the specific requirements and guidance documents referenced above. If you need clarification on any specific aspect or have additional questions about compliance requirements, I'm here to help.\n\nDo you need any additional clarifications?"

/-- Fixed header of the gap-analysis compilation. -/
def gap_header : String :=
  "**FDA Auditor Assessment - Compliance Gap Analysis:**\n\nBased on comprehensive analysis by our specialist team, here is the regulatory assessment:\n\n"

/-- One per-agent section of the gap-analysis compilation:
`f"**{agent_name} Findings:**\n{response['content']}\n\n"`. -/
def gap_section (response : String × String) : String :=
  "**" ++ pyTitle (response.1.replace "_" " ") ++ " Findings:**\n" ++
    response.2 ++ "\n\n"

/-- Fixed closing summary of the gap-analysis compilation. -/
def gap_footer : String :=
  "**Overall Assessment:**\nThe compliance gap analysis has been completed by our specialist team. Please review the findings above and address any identified gaps before proceeding with your regulatory submission.\n\nDo you need any additional clarifications?"

/-- The generic message returned when no specialist message exists. -/
def generic_completion_message (termination_reason : String) : String :=
  "Analysis completed (" ++ termination_reason ++
    "). Please let me know if you need any additional information or clarification."

/-- `graph.state.compile_final_response_from_messages`. -/
def compile_final_response_from_messages (messages : List Message)
    (workflow_type termination_reason : String) : String :=
  let agent_responses := agentResponses messages
  match agent_responses.getLast? with
  | none => generic_completion_message termination_reason
  | some last =>
      if workflow_type = "question_answering" then
        qa_prefix ++ last.2 ++ qa_infix ++ (last.1.replace "_" " ") ++ qa_suffix
      else
        gap_header ++ String.join (agent_responses.map gap_section) ++ gap_footer

/-- The `SupervisorResponse` pydantic schema: `next`, `final_response`
(default `""`), `reasoning` (default `""`). -/
structure SupervisorResponse where
  next : String
  final_response : String
  reasoning : String
deriving Repr, DecidableEq

/-- The decision oracle: the LLM chain plus JSON parsing plus pydantic
construction.  `Except.error` models any exception raised on that path. -/
def Oracle : Type :=
  ComplianceGapState → Except String SupervisorResponse

/-- The valid routing options enforced by the `SupervisorResponse` `next`
field validator (`Literal` plus `validate_next`). -/
def valid_options : List String :=
  ["FINISH", "document_processor", "cybersecurity_agent", "regulatory_agent",
   "auditor_agent", "report_generator"]

/-- The required-agent list of the gap-analysis completion check in
`supervisor_node`. -/
def gap_required_agents : List String :=
  ["document_processor", "cybersecurity_agent", "regulatory_agent",
   "auditor_agent", "report_generator"]

/-- The state delta `{"next": ..., "final_response": ...}` returned by
`supervisor_node`. -/
structure SupervisorResult where
  next : String
  final_response : String
deriving Repr, DecidableEq

/-- `graph.state.create_supervisor_agent.supervisor_node`.  The four
deterministic termination checks run before the oracle; an oracle answer whose
`next` fails pydantic validation raises inside the `try` block and lands in
the same `except` fallback as an oracle exception; the two post-decision
validations force deterministic compilation.  The nested `except` around the
fallback compilation is unreachable here because the embedded compiler is
total. -/
def supervisor_node (oracle : Oracle) (state : ComplianceGapState) :
    SupervisorResult :=
  let messages := state.messages
  let workflow_type := state.workflow_type
  let completed_agents := get_completed_agents_from_messages messages
  let agent_message_count := agentMessageCount messages
  if 6 ≤ agent_message_count then
    ⟨"FINISH",
      compile_final_response_from_messages messages workflow_type
        "Maximum agent interactions reached"⟩
  else if pyTruthyStr state.final_response then
    ⟨"FINISH",
      compile_final_response_from_messages messages workflow_type
        "Final response already provided"⟩
  else if workflow_type = "question_answering" ∧ 1 ≤ completed_agents.length then
    ⟨"FINISH",
      compile_final_response_from_messages messages workflow_type
        "Question answering workflow complete"⟩
  else if workflow_type = "gap_analysis" ∧
      gap_required_agents.all (fun a => completed_agents.contains a) then
    ⟨"FINISH",
      compile_final_response_from_messages messages workflow_type
        "Gap analysis workflow complete"⟩
  else
    match oracle state with
    | Except.error _ =>
        ⟨"FINISH",
          compile_final_response_from_messages messages workflow_type
            "Error in supervisor routing"⟩
    | Except.ok result =>
        if ¬ result.next ∈ valid_options then
          ⟨"FINISH",
            compile_final_response_from_messages messages workflow_type
              "Error in supervisor routing"⟩
        else if result.next ≠ "FINISH" ∧ result.next ∈ completed_agents then
          ⟨"FINISH",
            compile_final_response_from_messages messages workflow_type
              "Attempted duplicate routing prevented"⟩
        else if result.next = "FINISH" ∧ pyStrip result.final_response = "" then
          ⟨"FINISH",
            compile_final_response_from_messages messages workflow_type
              "LLM requested finish without response"⟩
        else
          ⟨result.next, result.final_response⟩

/-- `RegulatoryWorkflow.run_async`: the workflow-type selection and the
initial state, which are all that the entry point contributes to the claims
(`"gap_analysis" if uploaded_files else "question_answering"`). -/
def run_async_initial_state (user_input : String)
    (uploaded_files : Option (List FileData)) : ComplianceGapState :=
  let workflow_type :=
    if pyTruthyList uploaded_files then "gap_analysis" else "question_answering"
  create_initial_state user_input uploaded_files workflow_type

/-- `RegulatoryWorkflow.run_sync`: identical workflow-type selection. -/
def run_sync_initial_state (user_input : String)
    (uploaded_files : Option (List FileData)) : ComplianceGapState :=
  let workflow_type :=
    if pyTruthyList uploaded_files then "gap_analysis" else "question_answering"
  create_initial_state user_input uploaded_files workflow_type

/-- The deduplication key `f"{source['document']}_page_{source['page']}"` used
in `run_async`'s citation rendering. -/
def sourceKey (s : Citation) : String :=
  s.document ++ "_page_" ++ s.page

/-- The deduplication loop of `run_async`: keep a source only when its key has
not been seen, preserving first-seen order (the Python `seen` set is modelled
as the list of keys added so far). -/
def dedupSources (all_sources : List Citation) : List Citation :=
  (all_sources.foldl
    (fun (acc : List Citation × List String) s =>
      if sourceKey s ∈ acc.2 then acc
      else (acc.1 ++ [s], acc.2 ++ [sourceKey s]))
    ([], [])).1

/-- One rendered citation line
`f"{i}. **{source['document']}** - Page {source['page']}\n"`. -/
def sourceLine (i : Nat) (s : Citation) : String :=
  toString i ++ ". **" ++ s.document ++ "** - Page " ++ s.page ++ "\n"

/-- `enumerate(unique_sources, 1)` rendered to lines. -/
def numberLinesFrom (i : Nat) : List Citation → List String
  | [] => []
  | c :: cs => sourceLine i c :: numberLinesFrom (i + 1) cs

/-- The numbered citation list emitted at the end of `run_async`'s stream. -/
def renderedSourceLines (all_sources : List Citation) : List String :=
  numberLinesFrom 1 (dedupSources all_sources)

/-- A member of a parsed ZIP archive as `zipfile` exposes it: filename,
directory flag, uncompressed size, and the outcome of `zip_file.read`
(`Except.error` models a read raising on a corrupted entry). -/
structure ZipMember where
  filename : String
  is_dir : Bool
  file_size : Nat
  readResult : Except String (List Nat)

/-- The external `zipfile.ZipFile` constructor: bytes to member list, with
`Except.error` modelling `zipfile.BadZipFile`. -/
def ZipLib : Type :=
  List Nat → Except String (List ZipMember)

/-- The external `utils.document_parsers.extract_text_with_metadata`
restricted to its `"text"` field; `Except.error` models any exception. -/
def TextExtractor : Type :=
  List Nat → String → Except String String

/-- Lower-case hex digit. -/
def hexDigitChar (n : Nat) : Char :=
  if n < 10 then Char.ofNat (48 + n) else Char.ofNat (87 + n)

/-- `bytes.hex()`. -/
def bytesHex (bs : List Nat) : String :=
  String.join (bs.map (fun b =>
    String.mk [hexDigitChar (b / 16 % 16), hexDigitChar (b % 16)]))

/-- `os.path.splitext(p)[1]`: the extension starting at the last dot of the
basename, empty when every basename character before that dot is itself a
dot (so dotfiles have no extension). -/
def splitextExt (p : String) : String :=
  let cs := p.data
  let base := match (cs.enum.filter (fun q => q.2 = '/')).getLast? with
    | some q => q.1 + 1
    | none => 0
  match (cs.enum.filter (fun q => q.2 = '.')).getLast? with
  | none => ""
  | some d =>
      if base ≤ d.1 ∧ ((cs.drop base).take (d.1 - base)).any (fun c => c ≠ '.')
      then String.mk (cs.drop d.1)
      else ""

/-- Python `str.lower()` as used on the extension. -/
def pyLower (s : String) : String :=
  String.mk (s.data.map Char.toLower)

/-- `main.extract_text_from_file`: total; an extractor exception becomes the
bracketed error string. -/
def extract_text_from_file (extractor : TextExtractor)
    (file_content : List Nat) (filename : String) : String :=
  match extractor file_content filename with
  | Except.ok r => r
  | Except.error e =>
      "[Error extracting content from " ++ filename ++ ": " ++ e ++ "]"

/-- The entry `main.process_zip_file` builds for one non-directory member. -/
def zipMemberEntry (extractor : TextExtractor) (m : ZipMember) : FileData :=
  match m.readResult with
  | Except.ok fileBytes =>
      { name := m.filename
        content := extract_text_from_file extractor fileBytes m.filename
        type := pyLower (splitextExt m.filename)
        size := m.file_size }
  | Except.error e =>
      { name := m.filename
        content := "[Error processing file: " ++ e ++ "]"
        type := "error"
        size := 0 }

/-- `main.process_zip_file`.  The two `ValueError`s raised by the magic-byte
guard are caught by the generic `except Exception` arm (producing the
`zip_error.txt` entry); a `BadZipFile` from the `zipfile` library produces
the `zip_format_error.txt` entry; member processing never raises past the
per-member `try`. -/
def process_zip_file (zipLib : ZipLib) (extractor : TextExtractor)
    (zip_content : List Nat) : List FileData :=
  if zip_content.length < 4 then
    [{ name := "zip_error.txt"
       content := "Error processing ZIP file: File too small to be a valid ZIP file"
       type := "error", size := 0 }]
  else if ¬ zip_content.take 2 = [0x50, 0x4B] then
    [{ name := "zip_error.txt"
       content := "Error processing ZIP file: File does not appear to be a ZIP file. Magic bytes: "
         ++ bytesHex (zip_content.take 4)
       type := "error", size := 0 }]
  else
    match zipLib zip_content with
    | Except.error e =>
        [{ name := "zip_format_error.txt"
           content := "Invalid ZIP file format: " ++ e
           type := "error", size := 0 }]
    | Except.ok members =>
        (members.filter (fun m => !m.is_dir)).map (zipMemberEntry extractor)

/-- Scenario E archive members: one valid text file, one corrupted entry. -/
def zipE_members : List ZipMember :=
  [⟨"device_spec.txt", false, 11, Except.ok [104, 105]⟩,
   ⟨"corrupted.pdf", false, 99, Except.error "Bad CRC-32"⟩]

/-- A `zipfile` stub exposing the Scenario E members. -/
def zipLib_scenarioE : ZipLib := fun _ => Except.ok zipE_members

/-- A text extractor stub decoding bytes as characters. -/
def extractor_id : TextExtractor :=
  fun bytes _ => Except.ok (String.mk (bytes.map Char.ofNat))

/-- Concrete upload bytes with a valid ZIP magic. -/
def zipE_content : List Nat := [0x50, 0x4B, 0x03, 0x04]

/-- Recursion-friendly form of the `run_async` deduplication loop, carrying
the `seen` key set explicitly; `dedup_foldl` below proves it equal to the
fold. -/
def dedupFrom (seen : List String) : List Citation → List Citation
  | [] => []
  | c :: cs =>
      if sourceKey c ∈ seen then dedupFrom seen cs
      else c :: dedupFrom (seen ++ [sourceKey c]) cs

/-- A concrete extracted-citation list with one duplicate, as in the spec's
Scenario A citation `("21 CFR Part 814", "2")`. -/
def sample_sources : List Citation :=
  [⟨"21 CFR Part 814", "2"⟩, ⟨"FDA Guidance", "4"⟩, ⟨"21 CFR Part 814", "2"⟩]

/-- Oracle stub that always raises, as in the spec's deterministic-degrade
scenario. -/
def oracle_err : Oracle := fun _ => Except.error "oracle unavailable"

/-- Oracle stub returning a fixed parsed answer. -/
def oracle_const (r : SupervisorResponse) : Oracle := fun _ => Except.ok r

/-- A state whose `final_response` was stored by the oracle on an earlier
turn: seed human message only, oracle-composed text on file. -/
def st_oracle_answered : ComplianceGapState :=
  { create_initial_state "What are the FDA cybersecurity requirements?" none
      "question_answering" with
    final_response := some "ORACLE TEXT" }

/-- A state with six specialist-authored messages (workflow incomplete,
`final_response` unset), as in the spec's Scenario C. -/
def st_six_agents : ComplianceGapState :=
  { create_initial_state "Analyze these documents" none "gap_analysis" with
    messages :=
      [⟨"Analyze these documents", none⟩,
       ⟨"m1", some "document_processor"⟩,
       ⟨"m2", some "cybersecurity_agent"⟩,
       ⟨"m3", some "regulatory_agent"⟩,
       ⟨"m4", some "auditor_agent"⟩,
       ⟨"m5", some "cybersecurity_agent"⟩,
       ⟨"m6", some "regulatory_agent"⟩] }

/-- A gap-analysis state in which only the cybersecurity specialist has
responded, so the oracle is consulted (spec Scenario D). -/
def st_cyber_done : ComplianceGapState :=
  { create_initial_state "Analyze these documents" none "gap_analysis" with
    messages :=
      [⟨"Analyze these documents", none⟩,
       ⟨"cyber findings", some "cybersecurity_agent"⟩] }

/-- A message list holding only the human seed and a supervisor message. -/
def msgs_no_specialist : List Message :=
  [⟨"What is a 510K?", none⟩, ⟨"routing", some "supervisor"⟩]

/-- A message list whose specialist message carries a trailing sources
section. -/
def msgs_with_marker : List Message :=
  [⟨"What is a 510K?", none⟩,
   ⟨"routing", some "supervisor"⟩,
   ⟨"A 510K is a premarket submission." ++ "\n\n" ++ sources_marker ++
      "\n1. FDA Guidance - Page 4\n",
    some "regulatory_agent"⟩]

section Theorems

/-- A string append is non-empty as soon as its left part is. -/
theorem append_ne_empty_left (s t : String) (h : s ≠ "") : s ++ t ≠ "" := by
  intro hc
  apply h
  have hlen := congrArg String.length hc
  rw [String.length_append] at hlen
  have hzero : s.length = 0 := by
    have : ("" : String).length = 0 := rfl
    omega
  have hdata : s.data = [] := List.length_eq_zero.mp hzero
  cases s with
  | mk data =>
      have hnil : data = [] := hdata
      subst hnil
      rfl

/-- Every branch of the compiler yields a non-empty string. -/
theorem compile_ne_empty (messages : List Message) (wt r : String) :
    compile_final_response_from_messages messages wt r ≠ "" := by
  unfold compile_final_response_from_messages generic_completion_message
  cases h : (agentResponses messages).getLast? with
  | none =>
      simp only [h]
      apply append_ne_empty_left
      apply append_ne_empty_left
      decide
  | some last =>
      simp only [h]
      split
      · apply append_ne_empty_left
        apply append_ne_empty_left
        apply append_ne_empty_left
        apply append_ne_empty_left
        decide
      · apply append_ne_empty_left
        apply append_ne_empty_left
        decide

/-- C2 counterexample: the gap-analysis initial state has a four-element
team; `document_processor` is not a member, so `team_members` does not equal
the claimed five-element set. -/
theorem gap_team_lacks_document_processor :
    (create_initial_state "Analyze these documents" none
        "gap_analysis").team_members =
      ["cybersecurity_agent", "regulatory_agent", "auditor_agent",
       "report_generator"] ∧
    "document_processor" ∉
      (create_initial_state "Analyze these documents" none
        "gap_analysis").team_members := by
  constructor
  · rfl
  · decide

/-- C2 (amended): for every initial state, `team_members` is the four-element
list `[cybersecurity_agent, regulatory_agent, auditor_agent,
report_generator]` for gap_analysis (document_processor is absent, though the
graph still routes to it) and `[cybersecurity_agent, regulatory_agent]` for
question_answering. -/
theorem create_initial_state_team_members (ui : String)
    (uf : Option (List FileData)) :
    (create_initial_state ui uf "gap_analysis").team_members =
      ["cybersecurity_agent", "regulatory_agent", "auditor_agent",
       "report_generator"] ∧
    (create_initial_state ui uf "question_answering").team_members =
      ["cybersecurity_agent", "regulatory_agent"] :=
  ⟨rfl, rfl⟩

/-- C10: both entry points derive the workflow type from `uploaded_files`
alone — `gap_analysis` exactly for a non-empty list, `question_answering`
for `None` or `[]` — and the question text plays no role. -/
theorem workflow_type_from_uploaded_files (q q' : String) (f : FileData)
    (fs : List FileData) (uf : Option (List FileData)) :
    (run_async_initial_state q none).workflow_type = "question_answering" ∧
    (run_async_initial_state q (some [])).workflow_type =
      "question_answering" ∧
    (run_async_initial_state q (some (f :: fs))).workflow_type =
      "gap_analysis" ∧
    (run_sync_initial_state q none).workflow_type = "question_answering" ∧
    (run_sync_initial_state q (some [])).workflow_type =
      "question_answering" ∧
    (run_sync_initial_state q (some (f :: fs))).workflow_type =
      "gap_analysis" ∧
    (run_async_initial_state q uf).workflow_type =
      (run_async_initial_state q' uf).workflow_type ∧
    (run_sync_initial_state q uf).workflow_type =
      (run_async_initial_state q' uf).workflow_type :=
  ⟨rfl, rfl, rfl, rfl, rfl, rfl, rfl, rfl⟩

/-- C3: with at least 6 non-human, non-supervisor messages, the Supervisor
returns `FINISH` with the response compiled for the hard-cap reason, for every
oracle — so the oracle is never consulted and no other termination rule's
reason can be observed: the hard cap is decided first. -/
theorem supervisor_hard_cap (st : ComplianceGapState) (o : Oracle)
    (h : 6 ≤ agentMessageCount st.messages) :
    supervisor_node o st =
      ⟨"FINISH",
        compile_final_response_from_messages st.messages st.workflow_type
          "Maximum agent interactions reached"⟩ := by
  simp only [supervisor_node]
  rw [if_pos h]

/-- C3 witness: Scenario C's six-specialist-message state terminates via the
hard cap under an oracle stub. -/
theorem supervisor_hard_cap_witness :
    6 ≤ agentMessageCount st_six_agents.messages ∧
    supervisor_node oracle_err st_six_agents =
      ⟨"FINISH",
        compile_final_response_from_messages st_six_agents.messages
          st_six_agents.workflow_type "Maximum agent interactions reached"⟩ :=
  ⟨by decide, supervisor_hard_cap st_six_agents oracle_err (by decide)⟩

/-- C4: if the oracle path raises, the Supervisor still returns `FINISH`
with a non-empty response compiled deterministically from the messages. -/
theorem supervisor_oracle_failure_contained (st : ComplianceGapState)
    (o : Oracle) (e : String) (h : o st = Except.error e) :
    (supervisor_node o st).next = "FINISH" ∧
    (supervisor_node o st).final_response ≠ "" ∧
    ∃ reason,
      (supervisor_node o st).final_response =
        compile_final_response_from_messages st.messages st.workflow_type
          reason := by
  simp only [supervisor_node]
  split_ifs <;>
    first
      | exact ⟨rfl, compile_ne_empty _ _ _, _, rfl⟩
      | (rw [h]; exact ⟨rfl, compile_ne_empty _ _ _, _, rfl⟩)

/-- C4 witness: the fresh question-answering state under an always-raising
oracle still finishes with a non-empty compiled response. -/
theorem supervisor_oracle_failure_contained_witness :
    oracle_err (create_initial_state "What is SOUP?" none
        "question_answering") = Except.error "oracle unavailable" ∧
    (supervisor_node oracle_err
        (create_initial_state "What is SOUP?" none
          "question_answering")).next = "FINISH" :=
  ⟨rfl,
    (supervisor_oracle_failure_contained
      (create_initial_state "What is SOUP?" none "question_answering")
      oracle_err "oracle unavailable" rfl).1⟩

/-- C5: an oracle answer that routes to an already-answered specialist, or
that finishes with a blank response, is discarded: the Supervisor returns
`FINISH` with a deterministically compiled response. -/
theorem supervisor_rejects_bad_oracle_answer (st : ComplianceGapState)
    (o : Oracle) (r : SupervisorResponse) (hok : o st = Except.ok r)
    (hbad :
      (r.next ≠ "FINISH" ∧
        r.next ∈ get_completed_agents_from_messages st.messages) ∨
      (r.next = "FINISH" ∧ pyStrip r.final_response = "")) :
    (supervisor_node o st).next = "FINISH" ∧
    ∃ reason,
      (supervisor_node o st).final_response =
        compile_final_response_from_messages st.messages st.workflow_type
          reason := by
  simp only [supervisor_node]
  split_ifs
  case _ => exact ⟨rfl, _, rfl⟩
  case _ => exact ⟨rfl, _, rfl⟩
  case _ => exact ⟨rfl, _, rfl⟩
  case _ => exact ⟨rfl, _, rfl⟩
  simp only [hok]
  by_cases hv : r.next ∉ valid_options
  · rw [if_pos hv]
    exact ⟨rfl, _, rfl⟩
  · rw [if_neg hv]
    rcases hbad with hdup | hblank
    · rw [if_pos hdup]
      exact ⟨rfl, _, rfl⟩
    · have hnd : ¬(r.next ≠ "FINISH" ∧
          r.next ∈ get_completed_agents_from_messages st.messages) :=
        fun hcontra => hcontra.1 hblank.1
      rw [if_neg hnd, if_pos hblank]
      exact ⟨rfl, _, rfl⟩

/-- C5 witness: Scenario D — in a gap-analysis state where the
cybersecurity specialist already answered, an oracle answer routing to it
again is overridden into a compiled `FINISH`. -/
theorem supervisor_rejects_bad_oracle_answer_witness :
    oracle_const ⟨"cybersecurity_agent", "", ""⟩ st_cyber_done =
      Except.ok ⟨"cybersecurity_agent", "", ""⟩ ∧
    ("cybersecurity_agent" ≠ "FINISH" ∧
      "cybersecurity_agent" ∈
        get_completed_agents_from_messages st_cyber_done.messages) ∧
    (supervisor_node (oracle_const ⟨"cybersecurity_agent", "", ""⟩)
        st_cyber_done).next = "FINISH" :=
  ⟨rfl, ⟨by decide, by decide⟩,
    (supervisor_rejects_bad_oracle_answer st_cyber_done
        (oracle_const ⟨"cybersecurity_agent", "", ""⟩)
        ⟨"cybersecurity_agent", "", ""⟩ rfl
        (Or.inl ⟨by decide, by decide⟩)).1⟩

/-- C1 counterexample: a state storing the oracle-composed final response
"ORACLE TEXT" is re-terminated with a recompiled response that differs from
the stored string — `final_response` is replaced, not preserved. -/
theorem supervisor_retermination_replaces_text :
    st_oracle_answered.final_response = some "ORACLE TEXT" ∧
    (supervisor_node oracle_err st_oracle_answered).next = "FINISH" ∧
    (supervisor_node oracle_err st_oracle_answered).final_response ≠
      "ORACLE TEXT" := by
  refine ⟨rfl, rfl, ?_⟩
  decide

/-- C1 (amended): once `final_response` holds a non-empty string, any further
Supervisor invocation returns `next = FINISH` without consulting the oracle,
but with a `final_response` recompiled deterministically from the message
log, which may differ from (and replaces) the stored text. -/
theorem supervisor_retermination_finishes (st : ComplianceGapState)
    (o o' : Oracle) (h : pyTruthyStr st.final_response = true) :
    (supervisor_node o st).next = "FINISH" ∧
    (∃ reason,
      (supervisor_node o st).final_response =
        compile_final_response_from_messages st.messages st.workflow_type
          reason) ∧
    supervisor_node o st = supervisor_node o' st := by
  have key : ∀ o'' : Oracle,
      supervisor_node o'' st =
        ⟨"FINISH",
          compile_final_response_from_messages st.messages st.workflow_type
            (if 6 ≤ agentMessageCount st.messages then
              "Maximum agent interactions reached"
            else "Final response already provided")⟩ := by
    intro o''
    simp only [supervisor_node]
    by_cases h6 : 6 ≤ agentMessageCount st.messages
    · simp [h6]
    · simp [h6, h]
  exact ⟨by rw [key o], ⟨_, by rw [key o]⟩, by rw [key o, key o']⟩

/-- C1 witness: the amended behaviour at the concrete oracle-answered
state. -/
theorem supervisor_retermination_finishes_witness :
    pyTruthyStr st_oracle_answered.final_response = true ∧
    (supervisor_node oracle_err st_oracle_answered).next = "FINISH" :=
  ⟨by decide,
    (supervisor_retermination_finishes st_oracle_answered oracle_err
      oracle_err (by decide)).1⟩

/-- C6: the compiler never returns an empty string, and with no
specialist-authored message it returns the generic completed/ask-follow-up
message. -/
theorem compile_nonempty_and_generic (messages : List Message) (wt r : String) :
    compile_final_response_from_messages messages wt r ≠ "" ∧
    ((∀ m ∈ messages, msgAuthor m = none ∨ msgAuthor m = some "supervisor") →
      compile_final_response_from_messages messages wt r =
        generic_completion_message r) := by
  refine ⟨compile_ne_empty messages wt r, ?_⟩
  intro h
  have har : agentResponses messages = [] := by
    apply List.filterMap_eq_nil_iff.mpr
    intro m hm
    rcases h m hm with h1 | h1 <;> simp [h1]
  simp [compile_final_response_from_messages, har]

/-- C6 witness: a log holding only the human seed and a supervisor message
compiles to the generic message. -/
theorem compile_nonempty_and_generic_witness :
    (∀ m ∈ msgs_no_specialist,
      msgAuthor m = none ∨ msgAuthor m = some "supervisor") ∧
    compile_final_response_from_messages msgs_no_specialist
        "question_answering" "Done" = generic_completion_message "Done" :=
  ⟨by decide,
    (compile_nonempty_and_generic msgs_no_specialist "question_answering"
      "Done").2 (by decide)⟩

/-- Filtering the log to specialist messages leaves `agent_responses`
unchanged: the compiler reads nothing else. -/
theorem agentResponses_filter (messages : List Message) :
    agentResponses (messages.filter isAgentMessage) =
      agentResponses messages := by
  induction messages with
  | nil => rfl
  | cons m ms ih =>
      rcases hau : msgAuthor m with _ | n
      · have hA : isAgentMessage m = false := by simp [isAgentMessage, hau]
        simp [agentResponses, List.filter_cons, hA, hau,
          List.filterMap_cons] at ih ⊢
        exact ih
      · by_cases hs : n = "supervisor"
        · subst hs
          have hA : isAgentMessage m = false := by simp [isAgentMessage, hau]
          simp [agentResponses, List.filter_cons, hA, hau,
            List.filterMap_cons] at ih ⊢
          exact ih
        · have hA : isAgentMessage m = true := by
            simp [isAgentMessage, hau, hs]
          simp [agentResponses, List.filter_cons, hA, hau, hs,
            List.filterMap_cons] at ih ⊢
          exact ih

/-- `agent_responses` lists exactly the specialist messages, in message
order, with the sources section stripped from each body. -/
theorem agentResponses_eq_map (messages : List Message) :
    agentResponses messages =
      (messages.filter isAgentMessage).map
        (fun m => ((msgAuthor m).getD "", strip_sources_section m.content)) := by
  induction messages with
  | nil => rfl
  | cons m ms ih =>
      rcases hau : msgAuthor m with _ | n
      · have hA : isAgentMessage m = false := by simp [isAgentMessage, hau]
        simp [agentResponses, List.filter_cons, hA, hau,
          List.filterMap_cons] at ih ⊢
        exact ih
      · by_cases hs : n = "supervisor"
        · subst hs
          have hA : isAgentMessage m = false := by simp [isAgentMessage, hau]
          simp [agentResponses, List.filter_cons, hA, hau,
            List.filterMap_cons] at ih ⊢
          exact ih
        · have hA : isAgentMessage m = true := by
            simp [isAgentMessage, hau, hs]
          simp [agentResponses, List.filter_cons, hA, hau, hs,
            List.filterMap_cons] at ih ⊢
          exact ih

/-- C7: the compiler (a) reads only specialist-authored messages, (b) draws
one stripped body per specialist message in message order, (c) for
question_answering embeds the most recent specialist body in the fixed
framing, and (d) for gap_analysis emits every body under its per-agent
heading in order, closed by the fixed summary. -/
theorem compile_composition (messages : List Message) (r : String) :
    (compile_final_response_from_messages (messages.filter isAgentMessage)
        "question_answering" r =
      compile_final_response_from_messages messages "question_answering" r ∧
     compile_final_response_from_messages (messages.filter isAgentMessage)
        "gap_analysis" r =
      compile_final_response_from_messages messages "gap_analysis" r) ∧
    agentResponses messages =
      (messages.filter isAgentMessage).map
        (fun m => ((msgAuthor m).getD "", strip_sources_section m.content)) ∧
    (∀ last, (agentResponses messages).getLast? = some last →
      compile_final_response_from_messages messages "question_answering" r =
        qa_prefix ++ last.2 ++ qa_infix ++ last.1.replace "_" " " ++
          qa_suffix) ∧
    (agentResponses messages ≠ [] →
      compile_final_response_from_messages messages "gap_analysis" r =
        gap_header ++
          String.join ((agentResponses messages).map gap_section) ++
          gap_footer) := by
  refine ⟨⟨?_, ?_⟩, agentResponses_eq_map messages, ?_, ?_⟩
  · unfold compile_final_response_from_messages
    rw [agentResponses_filter]
  · unfold compile_final_response_from_messages
    rw [agentResponses_filter]
  · intro last hlast
    simp [compile_final_response_from_messages, hlast]
  · intro hne
    cases hlast : (agentResponses messages).getLast? with
    | none => exact absurd (List.getLast?_eq_none_iff.mp hlast) hne
    | some last => simp [compile_final_response_from_messages, hlast]

/-- C7 witness: a specialist message carrying a trailing sources section is
stripped and embedded in the question-answering framing. -/
theorem compile_composition_witness :
    (agentResponses msgs_with_marker).getLast? =
      some ("regulatory_agent", "A 510K is a premarket submission.") ∧
    compile_final_response_from_messages msgs_with_marker
        "question_answering" "r" =
      qa_prefix ++ "A 510K is a premarket submission." ++ qa_infix ++
        "regulatory_agent".replace "_" " " ++ qa_suffix :=
  ⟨by decide,
    (compile_composition msgs_with_marker "r").2.2.1
      ("regulatory_agent", "A 510K is a premarket submission.") (by decide)⟩

/-- The deduplication fold computes `dedupFrom`. -/
theorem dedup_foldl (l : List Citation) :
    ∀ (acc : List Citation) (seen : List String),
      (l.foldl
        (fun (acc : List Citation × List String) s =>
          if sourceKey s ∈ acc.2 then acc
          else (acc.1 ++ [s], acc.2 ++ [sourceKey s]))
        (acc, seen)).1 = acc ++ dedupFrom seen l := by
  induction l with
  | nil => intro acc seen; simp [dedupFrom]
  | cons c cs ih =>
      intro acc seen
      by_cases h : sourceKey c ∈ seen
      · simp [List.foldl_cons, h, dedupFrom, ih]
      · simp [List.foldl_cons, h, dedupFrom, ih, List.append_assoc]

/-- `dedupSources` in `dedupFrom` form. -/
theorem dedupSources_eq (l : List Citation) :
    dedupSources l = dedupFrom [] l := by
  unfold dedupSources
  rw [dedup_foldl l [] []]
  rfl

/-- The retained citations form a sublist of the input (first-seen order). -/
theorem dedupFrom_sublist : ∀ (l : List Citation) (seen : List String),
    (dedupFrom seen l).Sublist l := by
  intro l
  induction l with
  | nil => intro seen; simp [dedupFrom]
  | cons c cs ih =>
      intro seen
      unfold dedupFrom
      split
      · exact (ih seen).cons c
      · exact (ih (seen ++ [sourceKey c])).cons₂ c

/-- No retained citation carries a key that was already seen. -/
theorem dedupFrom_key_fresh : ∀ (l : List Citation) (seen : List String)
    (c : Citation), c ∈ dedupFrom seen l → sourceKey c ∉ seen := by
  intro l
  induction l with
  | nil => intro seen c hc; simp [dedupFrom] at hc
  | cons d ds ih =>
      intro seen c hc
      unfold dedupFrom at hc
      split at hc
      · exact ih seen c hc
      · rcases List.mem_cons.mp hc with rfl | hc'
        · assumption
        · intro hmem
          exact ih (seen ++ [sourceKey d]) c hc'
            (List.mem_append_left _ hmem)

/-- Retained citations have pairwise distinct keys. -/
theorem dedupFrom_pairwise_keys : ∀ (l : List Citation) (seen : List String),
    (dedupFrom seen l).Pairwise (fun a b => sourceKey a ≠ sourceKey b) := by
  intro l
  induction l with
  | nil => intro seen; simp [dedupFrom]
  | cons c cs ih =>
      intro seen
      unfold dedupFrom
      split
      · exact ih seen
      · refine List.Pairwise.cons ?_ (ih (seen ++ [sourceKey c]))
        intro b hb hkey
        exact dedupFrom_key_fresh cs (seen ++ [sourceKey c]) b hb
          (by rw [← hkey]; exact List.mem_append_right _ (by simp))

/-- Every input citation's key is either already seen or represented in the
output. -/
theorem dedupFrom_covers : ∀ (l : List Citation) (seen : List String)
    (s : Citation), s ∈ l →
    sourceKey s ∈ seen ∨
      ∃ t ∈ dedupFrom seen l, sourceKey t = sourceKey s := by
  intro l
  induction l with
  | nil => intro seen s hs; simp at hs
  | cons c cs ih =>
      intro seen s hs
      unfold dedupFrom
      rcases List.mem_cons.mp hs with rfl | hs'
      · split
        · left; assumption
        · right; exact ⟨s, by simp, rfl⟩
      · split
        case isTrue hseen =>
          rcases ih seen s hs' with h1 | ⟨t, ht, hkey⟩
          · exact Or.inl h1
          · exact Or.inr ⟨t, ht, hkey⟩
        case isFalse hseen =>
          rcases ih (seen ++ [sourceKey c]) s hs' with h1 | ⟨t, ht, hkey⟩
          · rcases List.mem_append.mp h1 with h2 | h2
            · exact Or.inl h2
            · right
              refine ⟨c, by simp, ?_⟩
              simp at h2
              exact h2.symm
          · exact Or.inr ⟨t, List.mem_cons_of_mem c ht, hkey⟩

/-- On digit-only page strings, a shared separator position forces the digit
prefixes (and hence the remainders) to agree. -/
theorem digit_sep_append_inj : ∀ (p1 p2 t1 t2 : List Char),
    (∀ c ∈ p1, c.isDigit) → (∀ c ∈ p2, c.isDigit) →
    p1 ++ '_' :: t1 = p2 ++ '_' :: t2 → p1 = p2 ∧ t1 = t2 := by
  intro p1
  induction p1 with
  | nil =>
      intro p2 t1 t2 _ h2 heq
      cases p2 with
      | nil => simpa using heq
      | cons z zs =>
          simp only [List.nil_append, List.cons_append,
            List.cons.injEq] at heq
          have hz : z.isDigit := h2 z (by simp)
          rw [← heq.1] at hz
          exact absurd hz (by decide)
  | cons x xs ih =>
      intro p2 t1 t2 h1 h2 heq
      cases p2 with
      | nil =>
          simp only [List.cons_append, List.nil_append,
            List.cons.injEq] at heq
          have hx : x.isDigit := h1 x (by simp)
          rw [heq.1] at hx
          exact absurd hx (by decide)
      | cons z zs =>
          simp only [List.cons_append, List.cons.injEq] at heq
          obtain ⟨hxz, hrest⟩ := heq
          obtain ⟨hp, ht⟩ :=
            ih zs t1 t2 (fun c hc => h1 c (List.mem_cons_of_mem x hc))
              (fun c hc => h2 c (List.mem_cons_of_mem z hc)) hrest
          exact ⟨by rw [hxz, hp], ht⟩

/-- On extracted citations — whose page fields are non-empty digit strings —
the key `document ++ "_page_" ++ page` collides exactly when document and
page both coincide. -/
theorem sourceKey_inj (a b : Citation)
    (ha : ∀ c ∈ a.page.data, c.isDigit) (hb : ∀ c ∈ b.page.data, c.isDigit)
    (h : sourceKey a = sourceKey b) :
    a.document = b.document ∧ a.page = b.page := by
  have key_data :
      a.document.data ++ "_page_".data ++ a.page.data =
        b.document.data ++ "_page_".data ++ b.page.data := by
    have hd := congrArg String.data h
    simpa [sourceKey, String.data_append] using hd
  have hrev :
      a.page.data.reverse ++
          ('_' :: (['e', 'g', 'a', 'p', '_'] ++ a.document.data.reverse)) =
        b.page.data.reverse ++
          ('_' :: (['e', 'g', 'a', 'p', '_'] ++ b.document.data.reverse)) := by
    have hr := congrArg List.reverse key_data
    simpa [List.reverse_append, List.append_assoc] using hr
  obtain ⟨hp, ht⟩ :=
    digit_sep_append_inj a.page.data.reverse b.page.data.reverse _ _
      (fun c hc => ha c (List.mem_reverse.mp hc))
      (fun c hc => hb c (List.mem_reverse.mp hc)) hrev
  have hpage : a.page = b.page :=
    congrArg String.mk (List.reverse_injective hp)
  have hdocdata : a.document.data.reverse = b.document.data.reverse :=
    List.append_cancel_left ht
  exact ⟨congrArg String.mk (List.reverse_injective hdocdata), hpage⟩

/-- The rendered line at position `i` numbers the `i`-th retained citation
with `k + i`. -/
theorem numberLinesFrom_get? : ∀ (l : List Citation) (k i : Nat),
    (numberLinesFrom k l).get? i =
      (l.get? i).map (fun c => sourceLine (k + i) c) := by
  intro l
  induction l with
  | nil => intro k i; simp [numberLinesFrom]
  | cons c cs ih =>
      intro k i
      cases i with
      | zero => simp [numberLinesFrom]
      | succ j =>
          simp only [numberLinesFrom, List.get?_cons_succ, ih (k + 1) j]
          have : k + 1 + j = k + (j + 1) := by omega
          rw [this]

/-- C8: the emitted citation list keeps at most one entry per
`(document, page)` pair, is a sublist of the input (first-seen order), covers
every input pair, and its lines are numbered from 1. -/
theorem citation_dedup_numbered (sources : List Citation)
    (h : ∀ s ∈ sources, s.page ≠ "" ∧ ∀ c ∈ s.page.data, c.isDigit) :
    (dedupSources sources).Pairwise
      (fun a b => ¬(a.document = b.document ∧ a.page = b.page)) ∧
    (dedupSources sources).Sublist sources ∧
    (∀ s ∈ sources, ∃ t ∈ dedupSources sources,
        t.document = s.document ∧ t.page = s.page) ∧
    (∀ i, (renderedSourceLines sources).get? i =
      ((dedupSources sources).get? i).map (fun c => sourceLine (i + 1) c)) := by
  rw [dedupSources_eq]
  refine ⟨?_, dedupFrom_sublist sources [], ?_, ?_⟩
  · refine (dedupFrom_pairwise_keys sources []).imp ?_
    intro a b hkey hpair
    exact hkey (by simp [sourceKey, hpair.1, hpair.2])
  · intro s hs
    rcases dedupFrom_covers sources [] s hs with h1 | ⟨t, ht, hkey⟩
    · simp at h1
    · have hts : t ∈ sources := (dedupFrom_sublist sources []).subset ht
      exact ⟨t, ht, sourceKey_inj t s (h t hts).2 (h s hs).2 hkey⟩
  · intro i
    unfold renderedSourceLines
    rw [dedupSources_eq, numberLinesFrom_get?]
    simp [Nat.add_comm]

/-- C8 witness: the Scenario A citation list with a duplicate
`("21 CFR Part 814", "2")` keeps one entry per pair. -/
theorem citation_dedup_numbered_witness :
    (∀ s ∈ sample_sources, s.page ≠ "" ∧ ∀ c ∈ s.page.data, c.isDigit) ∧
    (∀ s ∈ sample_sources, ∃ t ∈ dedupSources sample_sources,
      t.document = s.document ∧ t.page = s.page) :=
  ⟨by decide, (citation_dedup_numbered sample_sources (by decide)).2.2.1⟩

/-- C9: archive expansion is total (this Lean function, like the Python one,
always returns a list): any invalid archive — too short, wrong magic, or a
`zipfile` parse error — yields a single error-typed entry; for a valid
archive each non-directory member yields exactly one entry, an error-typed
pseudo-entry when its read raises and otherwise a normal entry carrying
name, extracted text, lower-cased extension and size. -/
theorem process_zip_error_containment (zipLib : ZipLib)
    (extractor : TextExtractor) (content : List Nat) :
    (content.length < 4 →
      process_zip_file zipLib extractor content =
        [⟨"zip_error.txt",
          "Error processing ZIP file: File too small to be a valid ZIP file",
          "error", 0⟩]) ∧
    (4 ≤ content.length → content.take 2 ≠ [0x50, 0x4B] →
      process_zip_file zipLib extractor content =
        [⟨"zip_error.txt",
          "Error processing ZIP file: File does not appear to be a ZIP file. Magic bytes: "
            ++ bytesHex (content.take 4),
          "error", 0⟩]) ∧
    (∀ e, 4 ≤ content.length → content.take 2 = [0x50, 0x4B] →
      zipLib content = Except.error e →
      process_zip_file zipLib extractor content =
        [⟨"zip_format_error.txt", "Invalid ZIP file format: " ++ e,
          "error", 0⟩]) ∧
    (∀ members, 4 ≤ content.length → content.take 2 = [0x50, 0x4B] →
      zipLib content = Except.ok members →
      process_zip_file zipLib extractor content =
        (members.filter (fun m => !m.is_dir)).map (zipMemberEntry extractor)) ∧
    (∀ m e, m.readResult = Except.error e →
      zipMemberEntry extractor m =
        ⟨m.filename, "[Error processing file: " ++ e ++ "]", "error", 0⟩) ∧
    (∀ m fileBytes, m.readResult = Except.ok fileBytes →
      zipMemberEntry extractor m =
        ⟨m.filename, extract_text_from_file extractor fileBytes m.filename,
          pyLower (splitextExt m.filename), m.file_size⟩) := by
  refine ⟨?_, ?_, ?_, ?_, ?_, ?_⟩
  · intro h
    unfold process_zip_file
    rw [if_pos h]
  · intro h4 hm
    unfold process_zip_file
    rw [if_neg (by omega), if_pos hm]
  · intro e h4 hm he
    unfold process_zip_file
    rw [if_neg (by omega), if_neg (not_not_intro hm)]
    simp only [he]
  · intro members h4 hm hok
    unfold process_zip_file
    rw [if_neg (by omega), if_neg (not_not_intro hm)]
    simp only [hok]
  · intro m e he
    unfold zipMemberEntry
    rw [he]
  · intro m fileBytes hok
    unfold zipMemberEntry
    rw [hok]

/-- C9 witness: Scenario E — one valid member and one corrupted member
expand to one normal and one error-typed entry. -/
theorem process_zip_error_containment_witness :
    4 ≤ zipE_content.length ∧ zipE_content.take 2 = [0x50, 0x4B] ∧
    process_zip_file zipLib_scenarioE extractor_id zipE_content =
      (zipE_members.filter (fun m => !m.is_dir)).map
        (zipMemberEntry extractor_id) ∧
    process_zip_file zipLib_scenarioE extractor_id zipE_content =
      [⟨"device_spec.txt", "hi", ".txt", 11⟩,
       ⟨"corrupted.pdf", "[Error processing file: Bad CRC-32]", "error", 0⟩] :=
  ⟨by decide, by decide,
    (process_zip_error_containment zipLib_scenarioE extractor_id
        zipE_content).2.2.2.1 zipE_members (by decide) (by decide) rfl,
    by decide⟩

end Theorems

end FdaSamd
